import Mathlib

/-!
Shallow embedding of the snowdrop scaffold command (cmd/scaffold.go and
pkg/ui/ui.go): the prompt layer, the query-string encoding of the project
descriptor, the remote-config fetch, the unzip step and the top-level
command wiring, together with theorems checking the specification
against these definitions.
-/

namespace ScaffoldSpec

/-- Character-list test embedding Go strings.HasPrefix at the character level. -/
def hasPrefixL : List Char → List Char → Bool
  | _, [] => true
  | [], _ :: _ => false
  | c :: cs, d :: ds => c == d && hasPrefixL cs ds

/-- Embeds Go strings.Contains: sub occurs contiguously inside s. -/
def hasInfixL (s sub : List Char) : Bool :=
  match s with
  | [] => hasPrefixL [] sub
  | _ :: cs => hasPrefixL s sub || hasInfixL cs sub

/-- Embeds Go strings.Contains on strings. -/
def strContains (s sub : String) : Bool :=
  hasInfixL s.data sub.data

/-- Lexicographic comparison of character lists, the order under which Go
sort.Strings sorts a string slice. -/
def listCharLe : List Char → List Char → Bool
  | [], _ => true
  | _ :: _, [] => false
  | a :: as, b :: bs => if a = b then listCharLe as bs else decide (a < b)

/-- Lexicographic comparison of strings. -/
def strLe (a b : String) : Bool := listCharLe a.data b.data

/-- The propositional form of strLe, used as the sorting relation. -/
def strLeRel (a b : String) : Prop := strLe a b = true

instance : DecidableRel strLeRel :=
  fun a b => inferInstanceAs (Decidable (strLe a b = true))

/-- Embeds Go sort.Strings: sort a string slice in ascending lexicographic
order. The Go sort is an unspecified comparison sort whose contract is a
sorted permutation of the input; insertion sort realizes that contract. -/
def sortStrings (l : List String) : List String :=
  List.insertionSort strLeRel l

theorem listCharLe_total : ∀ as bs : List Char,
    listCharLe as bs = true ∨ listCharLe bs as = true
  | [], _ => Or.inl rfl
  | _ :: _, [] => Or.inr rfl
  | a :: as, b :: bs => by
    by_cases h : a = b
    · subst h
      simpa [listCharLe] using listCharLe_total as bs
    · rcases lt_trichotomy a b with hlt | heq | hgt
      · exact Or.inl (by simp [listCharLe, h, hlt])
      · exact absurd heq h
      · exact Or.inr (by simp [listCharLe, Ne.symm h, hgt])

theorem listCharLe_trans : ∀ as bs cs : List Char,
    listCharLe as bs = true → listCharLe bs cs = true → listCharLe as cs = true
  | [], _, _, _, _ => rfl
  | _ :: _, [], _, h1, _ => by simp [listCharLe] at h1
  | _ :: _, _ :: _, [], _, h2 => by simp [listCharLe] at h2
  | a :: as, b :: bs, c :: cs, h1, h2 => by
    by_cases hab : a = b
    · subst hab
      by_cases hac : a = c
      · subst hac
        simp only [listCharLe, if_pos rfl] at h1 h2 ⊢
        exact listCharLe_trans _ _ _ h1 h2
      · simp only [listCharLe, if_pos rfl, if_neg hac] at h1 h2 ⊢
        exact h2
    · by_cases hbc : b = c
      · subst hbc
        simp only [listCharLe, if_neg hab] at h1 ⊢
        exact h1
      · simp only [listCharLe, if_neg hab, if_neg hbc, decide_eq_true_eq] at h1 h2
        have hac : a < c := lt_trans h1 h2
        simp only [listCharLe, if_neg (ne_of_lt hac), decide_eq_true_eq]
        exact hac

theorem listCharLe_antisymm : ∀ as bs : List Char,
    listCharLe as bs = true → listCharLe bs as = true → as = bs
  | [], [], _, _ => rfl
  | [], _ :: _, _, h2 => by simp [listCharLe] at h2
  | _ :: _, [], h1, _ => by simp [listCharLe] at h1
  | a :: as, b :: bs, h1, h2 => by
    by_cases hab : a = b
    · subst hab
      simp only [listCharLe, if_pos rfl] at h1 h2
      rw [listCharLe_antisymm as bs h1 h2]
    · simp only [listCharLe, if_neg hab, if_neg (Ne.symm hab),
        decide_eq_true_eq] at h1 h2
      exact absurd (lt_trans h1 h2) (lt_irrefl a)

theorem strEq_of_dataEq : ∀ {a b : String}, a.data = b.data → a = b := by
  intro a b h
  cases a
  cases b
  exact congrArg String.mk h

instance : IsTotal String strLeRel :=
  ⟨fun a b => listCharLe_total a.data b.data⟩

instance : IsTrans String strLeRel :=
  ⟨fun a b c h1 h2 => listCharLe_trans a.data b.data c.data h1 h2⟩

instance : IsAntisymm String strLeRel :=
  ⟨fun a b h1 h2 => strEq_of_dataEq (listCharLe_antisymm a.data b.data h1 h2)⟩

/-! Prompt layer (pkg/ui/ui.go and its copy in cmd/scaffold.go). -/

/-- Errors a survey prompt can report: the terminal interrupt or anything else. -/
inductive PromptError where
  | interrupt
  | other (msg : String)
deriving DecidableEq, Repr

/-- Observable outcome of HandleError. -/
inductive HandleOutcome where
  | exitProcess (code : Nat)
  | printedError (msg : String)
  | continued
deriving DecidableEq, Repr

/-- Embeds HandleError (identical in pkg/ui/ui.go and cmd/scaffold.go):
a terminal interrupt exits the process with status 1; any other error is
printed to standard output and execution continues; no error continues
silently. -/
def HandleError : Option PromptError → HandleOutcome
  | none => .continued
  | some .interrupt => .exitProcess 1
  | some (.other m) =>
      .printedError ("Encountered an error processing prompt: " ++ m)

/-- Result of running one prompt operation: the process exited, or the
operation returned a value after printing the given messages. -/
inductive PromptResult (α : Type) where
  | exited (code : Nat)
  | value (printed : List String) (v : α)
deriving DecidableEq, Repr

/-- Embeds the shared prompt pattern: survey.AskOne writes into a
zero-initialized variable and returns an error; the error goes through
HandleError and the variable is returned. On an error the variable keeps
its zero value. -/
def runPrompt {α : Type} (zero : α) (outcome : Except PromptError α) :
    PromptResult α :=
  match outcome with
  | .ok v =>
    match HandleError none with
    | .exitProcess c => .exited c
    | .printedError m => .value [m] v
    | .continued => .value [] v
  | .error e =>
    match HandleError (some e) with
    | .exitProcess c => .exited c
    | .printedError m => .value [m] zero
    | .continued => .value [] zero

/-- Embeds Proceed: a Confirm prompt into a zero-valued bool. -/
def Proceed (outcome : Except PromptError Bool) : PromptResult Bool :=
  runPrompt false outcome

/-- Embeds askOne: a prompt into a zero-valued string. -/
def askOne (outcome : Except PromptError String) : PromptResult String :=
  runPrompt "" outcome

/-- Embeds Select (result part): delegates to askOne. -/
def Select (outcome : Except PromptError String) : PromptResult String :=
  askOne outcome

/-- Embeds MultiSelect (result part): the modules variable starts as the
empty slice and is returned after HandleError. -/
def MultiSelect (outcome : Except PromptError (List String)) :
    PromptResult (List String) :=
  runPrompt [] outcome

/-- Embeds Ask: delegates to askOne. -/
def Ask (outcome : Except PromptError String) : PromptResult String :=
  askOne outcome

namespace ui

/-- Embeds the option presentation of Select in pkg/ui/ui.go:
sort.Strings runs on the options before they are displayed. -/
def selectPresented (options : List String) : List String :=
  ScaffoldSpec.sortStrings options

/-- Embeds the option presentation of MultiSelect in pkg/ui/ui.go:
sort.Strings runs on the options before they are displayed. -/
def multiSelectPresented (options : List String) : List String :=
  ScaffoldSpec.sortStrings options

end ui

namespace cmdMain

/-- Embeds the option presentation of Select in cmd/scaffold.go: the
options are displayed exactly as passed, no sorting. -/
def selectPresented (options : List String) : List String := options

/-- Embeds the option presentation of MultiSelect in cmd/scaffold.go: the
options are displayed exactly as passed, no sorting. -/
def multiSelectPresented (options : List String) : List String := options

end cmdMain

/-! URL query encoding: net/url Values as used by RunE in cmd/scaffold.go. -/

/-- Uppercase hexadecimal digit, as Go net/url emits. -/
def upperHexDigit (n : Nat) : Char :=
  if n < 10 then Char.ofNat (48 + n) else Char.ofNat (55 + n)

/-- Characters Go url.QueryEscape leaves unescaped: ASCII letters, digits,
dash, underscore, dot and tilde. -/
def isUnreserved (c : Char) : Bool :=
  c.isAlphanum || c = '-' || c = '_' || c = '.' || c = '~'

/-- Per-character escaping of Go url.QueryEscape: space becomes plus, an
unreserved character stays itself, anything else becomes a percent
sequence. Go escapes UTF-8 bytes; this embedding works on code points,
which agrees with Go on ASCII input. -/
def escapeChar (c : Char) : List Char :=
  if c = ' ' then ['+']
  else if isUnreserved c then [c]
  else ['%', upperHexDigit (c.toNat / 16), upperHexDigit (c.toNat % 16)]

/-- Embeds Go url.QueryEscape on ASCII data. -/
def queryEscape (s : String) : String :=
  String.mk (s.data.map escapeChar).flatten

/-- Embeds net/url Values: an association from keys to slices of values.
Go stores a map; this list keeps first-add key order, and since
Values.Encode sorts the keys the representation difference is
unobservable. -/
abbrev Values := List (String × List String)

/-- Embeds Values.Add: append the value to the slice stored under the key,
creating the entry when the key is absent. -/
def addValue (vs : Values) (k v : String) : Values :=
  match vs with
  | [] => [(k, [v])]
  | (q, ws) :: rest =>
      if q = k then (q, ws ++ [v]) :: rest else (q, ws) :: addValue rest k v

/-- Embeds the map read inside Values.Encode: the value slice stored under
a key, empty when the key is absent. -/
def getValues (vs : Values) (k : String) : List String :=
  match vs with
  | [] => []
  | (q, ws) :: rest => if q = k then ws else getValues rest k

/-- The key-value pairs Values.Encode emits, in emission order: keys
sorted with sort.Strings, and under each key the values in added order. -/
def encodePairs (vs : Values) : List (String × String) :=
  ((sortStrings (vs.map Prod.fst)).map
    (fun k => (getValues vs k).map (fun v => (k, v)))).flatten

/-- Embeds Values.Encode: escape each emitted pair and join with
ampersands. -/
def encodeValues (vs : Values) : String :=
  "&".intercalate ((encodePairs vs).map
    (fun kv => queryEscape kv.1 ++ "=" ++ queryEscape kv.2))

/-- The scaffold.Project descriptor from the companion scaffold package,
with exactly the fields cmd/scaffold.go reads and writes. -/
structure Project where
  template : String
  urlService : String
  modules : List String
  groupId : String
  artifactId : String
  version : String
  packageName : String
  springBootVersion : String
  snowdropBomVersion : String
  outDir : String
deriving DecidableEq, Repr

/-- Embeds the form construction in RunE: every descriptor field is added
unconditionally under its parameter name, then one module parameter is
added per non-empty entry of the module slice, in slice order. -/
def buildForm (p : Project) : Values :=
  let form : Values := []
  let form := addValue form "template" p.template
  let form := addValue form "groupid" p.groupId
  let form := addValue form "artifactid" p.artifactId
  let form := addValue form "version" p.version
  let form := addValue form "packagename" p.packageName
  let form := addValue form "snowdropbom" p.snowdropBomVersion
  let form := addValue form "springbootversion" p.springBootVersion
  let form := addValue form "outdir" p.outDir
  p.modules.foldl (fun f v => if v ≠ "" then addValue f "module" v else f) form

/-- Embeds the URL assembly in RunE: the service URL joined with the app
path, followed by the encoded parameters when they are non-empty. -/
def archiveRequestURL (p : Project) : String :=
  let parameters := encodeValues (buildForm p)
  let parameters := if parameters ≠ "" then "?" ++ parameters else parameters
  String.intercalate "/" [p.urlService, "app"] ++ parameters

/-- The values carried by the repeated module parameter of an emitted pair
list, in emission order. -/
def moduleParams (ps : List (String × String)) : List String :=
  (ps.filter (fun kv => kv.1 == "module")).map Prod.snd

/-! Remote configuration and the RunE descriptor flow. -/

/-- A bill-of-materials record of the remote configuration. Modelled from
the spec: the scaffold package holding these types lives in the companion
odo-scaffold-plugin module, outside this repository; per the spec a bom
holds a primary reference and an optional list of supported alternates. -/
structure BOM where
  snowdrop : String
  supported : List String
deriving DecidableEq, Repr

/-- The remote configuration. Modelled from the spec: a mapping from
version label to bom record, the recommended default version, the
available template names, and the supported-alternate lookup exposed by
GetSupportedVersionFor. -/
structure Config where
  boms : List (String × BOM)
  defaultVersion : String
  templates : List String
  supportedFor : String → String

/-- Embeds the Go map read versions[p.SpringBootVersion] in RunE: the
zero-valued BOM results when the version label is absent. -/
def lookupBOM (cfg : Config) (v : String) : BOM :=
  match cfg.boms.find? (fun kv => kv.1 == v) with
  | some kv => kv.2
  | none => { snowdrop := "", supported := [] }

/-- The values the prompt layer hands back during one RunE run, after the
degradation rules of HandleError: each prompt yields a value of its
result type, possibly the zero value after a tolerated prompt failure. -/
structure Answers where
  sbVersion : String
  useSupported : Bool
  fromTemplate : Bool
  template : String
  modules : List String
  groupId : String
  artifactId : String
  version : String
  packageName : String
  outDir : String
deriving DecidableEq, Repr

/-- Embeds the descriptor-population part of RunE, orchestrator steps 2
to 4: every prompt result is assigned to its descriptor field
unconditionally, overwriting whatever a flag preloaded there; the
template select runs only on the template path and the module
multi-select only on the module path. -/
def populateDescriptor (p0 : Project) (cfg : Config) (a : Answers) : Project :=
  let p1 := { p0 with springBootVersion := a.sbVersion }
  let bom := lookupBOM cfg p1.springBootVersion
  let p2 := { p1 with snowdropBomVersion := bom.snowdrop }
  let p3 := if !bom.supported.isEmpty && a.useSupported then
      { p2 with snowdropBomVersion := cfg.supportedFor p2.springBootVersion }
    else p2
  let p4 := if a.fromTemplate then { p3 with template := a.template }
    else { p3 with modules := a.modules }
  { p4 with
    groupId := a.groupId
    artifactId := a.artifactId
    version := a.version
    packageName := a.packageName
    outDir := a.outDir }

/-- The invariant the spec claims for the descriptor: exactly one of the
template and the module selection is non-empty before the archive request
is built. -/
def templateXorModules (p : Project) : Prop :=
  (p.template ≠ "" ∧ p.modules = []) ∨ (p.template = "" ∧ p.modules ≠ [])

instance (p : Project) : Decidable (templateXorModules p) := by
  unfold templateXorModules
  infer_instance

/-- The fixed default base URL of the generator service. -/
def ServiceEndpoint : String :=
  "http://spring-boot-generator.195.201.87.126.nip.io"

/-- The descriptor state createCmd leaves when no flag is passed:
urlservice defaults to the service endpoint, the module slice to empty,
every other flag to the empty string; outdir has no flag and keeps the Go
zero value. -/
def flagDefaults : Project :=
  { template := "", urlService := ServiceEndpoint, modules := [],
    groupId := "", artifactId := "", version := "", packageName := "",
    springBootVersion := "", snowdropBomVersion := "", outDir := "" }

/-! The configuration fetch, the event trace of RunE, and main. -/

/-- The environment one getYamlFrom call runs against: the error results
of request construction, sending and body reading, the body bytes
obtained, and the YAML decoding of the body. -/
structure YamlFetchEnv (α : Type) where
  newReqErr : Option String
  doErr : Option String
  body : String
  readErr : Option String
  parse : String → Except String α

/-- What one getYamlFrom call does: run into a nil dereference, stop the
process fatally, or return a decoded value; in each case with the list of
errors logged on the way. -/
inductive FetchOutcome (α : Type) where
  | nilDeref (logged : List String)
  | fatalStop (logged : List String) (msg : String)
  | ok (logged : List String) (val : α)

/-- The literal unavailability marker getYamlFrom searches the body for. -/
def unavailableMarker : String := "Application is not available"

/-- Embeds getYamlFrom of cmd/scaffold.go. A request-construction error is
only logged, after which addClientHeader dereferences the nil request; a
send error is only logged, after which reading res.Body dereferences the
nil response; a body-read error is only logged and the bytes read so far
are used; a body containing the unavailability marker stops the process
through log.Fatal, as does a YAML decoding error. -/
def getYamlFrom {α : Type} (env : YamlFetchEnv α) : FetchOutcome α :=
  match env.newReqErr with
  | some e => .nilDeref [e]
  | none =>
    match env.doErr with
    | some e => .nilDeref [e]
    | none =>
      let logged := env.readErr.toList
      if strContains env.body unavailableMarker then
        .fatalStop logged "Generator service is not available"
      else
        match env.parse env.body with
        | .error pe => .fatalStop logged pe
        | .ok v => .ok logged v

/-- Observable events of one RunE run, at the granularity the claims
need. -/
inductive Event where
  | configFetch
  | promptShown (msg : String)
  | fatalStop
  | crashStop
  | archiveRequest (u : String)
deriving DecidableEq, Repr

/-- The prompts RunE shows after a successful configuration fetch, in
program order: the supported-version confirm appears only when the bom of
the chosen version lists alternates, and exactly one of the template
select and the module multi-select appears. Prompt messages are the Go
literals; the project-location message is abbreviated to its fixed head. -/
def promptsShown (cfg : Config) (a : Answers) : List Event :=
  [Event.promptShown "Spring Boot version"]
    ++ (if !(lookupBOM cfg a.sbVersion).supported.isEmpty then
          [Event.promptShown "Use supported version"] else [])
    ++ [Event.promptShown "Create from template"]
    ++ (if a.fromTemplate then [Event.promptShown "Available templates"]
        else [Event.promptShown "Select modules"])
    ++ [Event.promptShown "Group Id", Event.promptShown "Artifact Id",
        Event.promptShown "Version", Event.promptShown "Package name",
        Event.promptShown "Project location"]

/-- The event trace of one RunE run as a function of the configuration
fetch outcome and the prompt answers: a fatal or crashed fetch produces
no prompt; a successful fetch is followed by the prompts and the archive
request. -/
def runETrace (fetch : FetchOutcome Config) (p0 : Project) (a : Answers) :
    List Event :=
  match fetch with
  | .nilDeref _ => [Event.configFetch, Event.crashStop]
  | .fatalStop _ _ => [Event.configFetch, Event.fatalStop]
  | .ok _ cfg =>
      Event.configFetch :: promptsShown cfg a
        ++ [Event.archiveRequest (archiveRequestURL (populateDescriptor p0 cfg a))]

/-- What the process prints at top level and the status it exits with. -/
structure MainResult where
  printed : Option String
  exitCode : Nat
deriving DecidableEq, Repr

/-- Embeds main after createCmd.Execute returns: a returned error is
printed with fmt.Print, then main falls off the end, so the process exits
with status 0 either way. Exit paths taken before Execute returns, namely
os.Exit(1) in HandleError and log.Fatal in getYamlFrom, never reach this
code. -/
def mainOutcome : Except String Unit → MainResult
  | .ok _ => { printed := none, exitCode := 0 }
  | .error e => { printed := some e, exitCode := 0 }

/-- Exit status of the logrus Fatal call getYamlFrom uses. Modelled from
the spec and the library contract: log.Fatal ends the process with a
non-zero status, concretely 1. -/
def logFatalExitCode : Nat := 1

/-! Filesystem model and Unzip. -/

/-- Splits a character list at the separator, accumulator style. -/
def splitSlash : List Char → List Char → List String
  | acc, [] => [String.mk acc.reverse]
  | acc, c :: cs =>
      if c = '/' then String.mk acc.reverse :: splitSlash [] cs
      else splitSlash (c :: acc) cs

/-- The elements of a slash separated path, as Go path cleaning walks
them. -/
def splitPath (s : String) : List String := splitSlash [] s.data

/-- The lexical cleaning loop of Go path/filepath Clean over the path
elements: empty and dot elements vanish; a dotdot element pops the last
kept element, walks into nothing above the root of a rooted path, and is
kept at the head of a relative path. -/
def cleanAux (rooted : Bool) : List String → List String → List String
  | acc, [] => acc.reverse
  | acc, c :: rest =>
    if c = "" ∨ c = "." then cleanAux rooted acc rest
    else if c = ".." then
      match acc with
      | top :: accRest =>
          if top = ".." then cleanAux rooted (c :: acc) rest
          else cleanAux rooted accRest rest
      | [] => if rooted then cleanAux rooted [] rest else cleanAux rooted [c] rest
    else cleanAux rooted (c :: acc) rest

/-- Embeds Go path/filepath Clean on slash separated paths. -/
def filepathClean (s : String) : String :=
  let rooted := hasPrefixL s.data ['/']
  let joined := String.intercalate "/" (cleanAux rooted [] (splitPath s))
  if rooted then "/" ++ joined
  else if joined = "" then "." else joined

/-- Embeds Go path/filepath Join of two elements: concatenate with the
separator and clean, skipping empty elements first. -/
def filepathJoin (a b : String) : String :=
  if a = "" then
    if b = "" then "" else filepathClean b
  else if b = "" then filepathClean a
  else filepathClean (a ++ "/" ++ b)

/-- Embeds strings.LastIndex for the separator character. -/
def lastSlashIdx : List Char → Option Nat
  | [] => none
  | c :: cs =>
    match lastSlashIdx cs with
    | some i => some (i + 1)
    | none => if c = '/' then some 0 else none

/-- Embeds the parent computation in Unzip: the part of the path before
the last separator, empty when no separator occurs. -/
def dirPart (s : String) : String :=
  match lastSlashIdx s.data with
  | some i => String.mk (s.data.take i)
  | none => ""

/-- A filesystem node: a directory with its mode, or a file with its
content bytes and mode. -/
inductive FsNode where
  | dir (mode : Nat)
  | file (content : String) (mode : Nat)
deriving DecidableEq, Repr

/-- A flat filesystem: an association from path to node. -/
abbrev FS := List (String × FsNode)

/-- The node stored at a path. -/
def fsLookup (fs : FS) (p : String) : Option FsNode :=
  match fs with
  | [] => none
  | (q, n) :: rest => if q = p then some n else fsLookup rest p

/-- Store a node at a path, replacing what was there. -/
def fsSet (fs : FS) (p : String) (n : FsNode) : FS :=
  match fs with
  | [] => [(p, n)]
  | (q, m) :: rest =>
      if q = p then (p, n) :: rest else (q, m) :: fsSet rest p n

/-- Remove the node stored at a path, embedding os.Remove on the success
path. -/
def fsRemove (fs : FS) (p : String) : FS :=
  fs.filter (fun kv => kv.1 != p)

/-- Cumulative paths of a component list, shortest first. -/
def ancestorsAux : String → List String → List String
  | _, [] => []
  | base, c :: rest => (base ++ c) :: ancestorsAux (base ++ c ++ "/") rest

/-- Every ancestor of a path including the path itself, shortest first. -/
def pathAncestors (p : String) : List String :=
  ancestorsAux (if hasPrefixL p.data ['/'] then "/" else "")
    ((splitPath p).filter (fun c => c != ""))

/-- The permissive mode os.ModePerm that Unzip passes to MkdirAll. -/
def modePerm : Nat := 0o777

/-- Embeds os.MkdirAll: create the directory and every missing parent
with the given mode, leaving existing entries untouched. MkdirAll of the
empty string touches nothing. -/
def mkdirAll (fs : FS) (p : String) (mode : Nat) : FS :=
  (pathAncestors p).foldl
    (fun acc q =>
      match fsLookup acc q with
      | some _ => acc
      | none => fsSet acc q (FsNode.dir mode)) fs

/-- One entry of the downloaded zip archive: its recorded name, directory
flag, mode and content bytes. -/
structure ZipEntry where
  name : String
  isDir : Bool
  mode : Nat
  content : String
deriving DecidableEq, Repr

/-- Embeds the loop body of Unzip for one entry: the target path is the
plain filepath.Join of the destination with the recorded entry name, with
no sanitization; a directory entry becomes MkdirAll with os.ModePerm; a
file entry gets its parent directories created with os.ModePerm and its
bytes written under its own recorded mode. -/
def extractEntry (dest : String) (fs : FS) (e : ZipEntry) : FS :=
  let name := filepathJoin dest e.name
  if e.isDir then mkdirAll fs name modePerm
  else
    let fs1 := mkdirAll fs (dirPart name) modePerm
    fsSet fs1 name (FsNode.file e.content e.mode)

/-- Embeds Unzip on the success path: every entry of the archive is
processed, in archive order. -/
def Unzip (dest : String) (entries : List ZipEntry) (fs : FS) : FS :=
  entries.foldl (extractEntry dest) fs

/-- Embeds the materialization tail of RunE on the success path: the
response body is written to outDir.zip beside the target directory with
mode 0644, the archive is extracted into the target directory, and the
zip file is removed. -/
def materialize (currentDir outDir : String) (body : String)
    (entries : List ZipEntry) (fs : FS) : FS :=
  let dir := filepathJoin currentDir outDir
  let zipFile := dir ++ ".zip"
  let fs1 := fsSet fs zipFile (FsNode.file body 0o644)
  let fs2 := Unzip dir entries fs1
  fsRemove fs2 zipFile

/-! Concrete data for the instance theorems. -/

/-- A concrete remote configuration used by the instance theorems. -/
def cfgDemo : Config :=
  { boms := [("2.1.0", { snowdrop := "x.y", supported := ["a.b"] })],
    defaultVersion := "2.1.0",
    templates := ["rest", "crud"],
    supportedFor := fun _ => "a.b" }

/-- Concrete prompt answers used by the instance theorems. -/
def answersDemo : Answers :=
  { sbVersion := "2.1.0", useSupported := false, fromTemplate := true,
    template := "rest", modules := [], groupId := "me.snowdrop",
    artifactId := "myproject", version := "1.0.0-SNAPSHOT",
    packageName := "me.snowdrop.myproject", outDir := "out" }

/-! Helper lemmas. -/

theorem populate_fields (p0 : Project) (cfg : Config) (a : Answers) :
    (populateDescriptor p0 cfg a).template
        = (if a.fromTemplate then a.template else p0.template) ∧
    (populateDescriptor p0 cfg a).modules
        = (if a.fromTemplate then p0.modules else a.modules) ∧
    (populateDescriptor p0 cfg a).urlService = p0.urlService ∧
    (populateDescriptor p0 cfg a).springBootVersion = a.sbVersion ∧
    (populateDescriptor p0 cfg a).groupId = a.groupId ∧
    (populateDescriptor p0 cfg a).artifactId = a.artifactId ∧
    (populateDescriptor p0 cfg a).version = a.version ∧
    (populateDescriptor p0 cfg a).packageName = a.packageName ∧
    (populateDescriptor p0 cfg a).outDir = a.outDir := by
  cases hf : a.fromTemplate <;> cases hu : a.useSupported <;>
    cases hs : (lookupBOM cfg a.sbVersion).supported.isEmpty <;>
      simp [populateDescriptor, hf, hu, hs]

/-! Claim theorems. -/

/-- C1 counterexample: when RunE hands an error back to main, the error
text is printed but the process exit status is 0, so the claimed non-zero
exit is false at this input. -/
theorem c1_counterexample :
    (mainOutcome (Except.error "failed to unzip new project file out.zip due to EOF")).printed
        = some "failed to unzip new project file out.zip due to EOF" ∧
    ¬ (mainOutcome (Except.error "failed to unzip new project file out.zip due to EOF")).exitCode ≠ 0 := by
  decide

/-- C1 amended: success exits 0 printing nothing; an error returned by
RunE, in particular from the archive step, is printed but the process
still exits 0; the non-zero exits are the interrupt path of HandleError
with status 1 and the log.Fatal path of the configuration fetch with
status 1. -/
theorem c1_exit_behavior (e : String) :
    mainOutcome (Except.ok ()) = { printed := none, exitCode := 0 } ∧
    mainOutcome (Except.error e) = { printed := some e, exitCode := 0 } ∧
    HandleError (some PromptError.interrupt) = HandleOutcome.exitProcess 1 ∧
    logFatalExitCode = 1 :=
  ⟨rfl, rfl, rfl, rfl⟩

/-- C2 counterexample: with the template flag pre-supplied and the module
path taken at the prompts, the descriptor reaching the archive request
has a non-empty template and a non-empty module selection at once. -/
theorem c2_counterexample :
    ¬ templateXorModules
        (populateDescriptor { flagDefaults with template := "rest" } cfgDemo
          { answersDemo with fromTemplate := false, modules := ["web"] }) := by
  decide

/-- C2 amended: the exclusive-or invariant holds before the archive
request only on runs where neither the template flag nor the module flag
pre-supplies a value and the chosen prompt returns a non-empty result;
pre-supplied flags (and zero-valued degraded prompt results) can produce
both fields non-empty or both empty. -/
theorem c2_invariant_without_flags (p0 : Project) (cfg : Config) (a : Answers)
    (ht : p0.template = "") (hm : p0.modules = []) :
    (a.fromTemplate = true → a.template ≠ "" →
      templateXorModules (populateDescriptor p0 cfg a)) ∧
    (a.fromTemplate = false → a.modules ≠ [] →
      templateXorModules (populateDescriptor p0 cfg a)) := by
  obtain ⟨hT, hM, -⟩ := populate_fields p0 cfg a
  constructor
  · intro hf hne
    rw [hf] at hT hM
    simp only [if_pos rfl] at hT hM
    exact Or.inl ⟨hT ▸ hne, hM.trans hm⟩
  · intro hf hne
    rw [hf] at hT hM
    simp only [if_neg (Bool.false_ne_true)] at hT hM
    exact Or.inr ⟨hT.trans ht, hM ▸ hne⟩

/-- C2 witness: the amended invariant at a concrete flagless run taking
the template path with a non-empty selection. -/
theorem c2_invariant_without_flags_witness :
    templateXorModules (populateDescriptor flagDefaults cfgDemo answersDemo) :=
  (c2_invariant_without_flags flagDefaults cfgDemo answersDemo rfl rfl).1 rfl
    (by decide)

/-- C4 counterexample: the Select and MultiSelect of cmd/scaffold.go, the
copies the scaffold command actually calls, show the options exactly as
given, so the input c a b is not presented as a b c. -/
theorem c4_counterexample :
    cmdMain.selectPresented ["c", "a", "b"] ≠ ["a", "b", "c"] ∧
    cmdMain.multiSelectPresented ["c", "a", "b"] ≠ ["a", "b", "c"] := by
  decide

/-- C4 amended: the Select and MultiSelect of pkg/ui/ui.go present the
options in ascending lexicographic order, the same for any input order,
while the copies in cmd/scaffold.go present the options in the given
input order with no sorting. -/
theorem c4_ui_sorts_cmd_does_not (l ls : List String) (hp : l.Perm ls) :
    ui.selectPresented l = ui.selectPresented ls ∧
    List.Sorted strLeRel (ui.selectPresented l) ∧
    ui.multiSelectPresented l = ui.multiSelectPresented ls ∧
    List.Sorted strLeRel (ui.multiSelectPresented l) ∧
    cmdMain.selectPresented l = l ∧
    cmdMain.multiSelectPresented l = l := by
  have hsorted : ∀ m : List String, List.Sorted strLeRel (sortStrings m) :=
    fun m => List.sorted_insertionSort strLeRel m
  have heq : sortStrings l = sortStrings ls :=
    List.eq_of_perm_of_sorted
      ((List.perm_insertionSort strLeRel l).trans
        (hp.trans (List.perm_insertionSort strLeRel ls).symm))
      (hsorted l) (hsorted ls)
  exact ⟨heq, hsorted l, heq, hsorted l, rfl, rfl⟩

/-- C4 witness: the amended statement at the concrete input of the spec
example and a permutation of it. -/
theorem c4_ui_sorts_cmd_does_not_witness :
    ui.selectPresented ["c", "a", "b"] = ui.selectPresented ["a", "b", "c"] ∧
    List.Sorted strLeRel (ui.selectPresented ["c", "a", "b"]) ∧
    ui.multiSelectPresented ["c", "a", "b"] = ui.multiSelectPresented ["a", "b", "c"] ∧
    List.Sorted strLeRel (ui.multiSelectPresented ["c", "a", "b"]) ∧
    cmdMain.selectPresented ["c", "a", "b"] = ["c", "a", "b"] ∧
    cmdMain.multiSelectPresented ["c", "a", "b"] = ["c", "a", "b"] :=
  c4_ui_sorts_cmd_does_not ["c", "a", "b"] ["a", "b", "c"] (by decide)

/-- C5: the four prompt operations share the asymmetric error contract of
HandleError: a user interrupt ends the process at once with exit status 1,
while any other prompt error is printed and the operation continues,
returning the zero value of its result type. -/
theorem c5_prompt_error_contract (m : String) :
    Proceed (Except.error PromptError.interrupt) = PromptResult.exited 1 ∧
    Select (Except.error PromptError.interrupt) = PromptResult.exited 1 ∧
    MultiSelect (Except.error PromptError.interrupt) = PromptResult.exited 1 ∧
    Ask (Except.error PromptError.interrupt) = PromptResult.exited 1 ∧
    Proceed (Except.error (PromptError.other m)) =
      PromptResult.value ["Encountered an error processing prompt: " ++ m] false ∧
    Select (Except.error (PromptError.other m)) =
      PromptResult.value ["Encountered an error processing prompt: " ++ m] "" ∧
    MultiSelect (Except.error (PromptError.other m)) =
      PromptResult.value ["Encountered an error processing prompt: " ++ m] [] ∧
    Ask (Except.error (PromptError.other m)) =
      PromptResult.value ["Encountered an error processing prompt: " ++ m] "" :=
  ⟨rfl, rfl, rfl, rfl, rfl, rfl, rfl, rfl⟩

/-- C7 counterexample: with the spring boot version pre-supplied through
its flag, the prompt result still overwrites the field, so the flag value
is not what reaches the archive request. -/
theorem c7_counterexample :
    (populateDescriptor { flagDefaults with springBootVersion := "2.1.0" }
        cfgDemo { answersDemo with sbVersion := "1.5.22.RELEASE" }).springBootVersion
      = "1.5.22.RELEASE" ∧
    (populateDescriptor { flagDefaults with springBootVersion := "2.1.0" }
        cfgDemo { answersDemo with sbVersion := "1.5.22.RELEASE" }).springBootVersion
      ≠ "2.1.0" := by
  decide

/-- C7 amended: the flags initialize the descriptor but do not make the
run non-interactive: every prompted field is unconditionally overwritten
by its prompt result; only the urlservice flag, which has no prompt, and
the flag value of the generation branch not chosen survive to the archive
request. -/
theorem c7_prompts_override_flags (p0 : Project) (cfg : Config) (a : Answers) :
    (populateDescriptor p0 cfg a).springBootVersion = a.sbVersion ∧
    (populateDescriptor p0 cfg a).groupId = a.groupId ∧
    (populateDescriptor p0 cfg a).artifactId = a.artifactId ∧
    (populateDescriptor p0 cfg a).version = a.version ∧
    (populateDescriptor p0 cfg a).packageName = a.packageName ∧
    (populateDescriptor p0 cfg a).outDir = a.outDir ∧
    (populateDescriptor p0 cfg a).urlService = p0.urlService ∧
    (populateDescriptor p0 cfg a).template
        = (if a.fromTemplate then a.template else p0.template) ∧
    (populateDescriptor p0 cfg a).modules
        = (if a.fromTemplate then p0.modules else a.modules) := by
  obtain ⟨hT, hM, hU, hS, hG, hA, hV, hP, hO⟩ := populate_fields p0 cfg a
  exact ⟨hS, hG, hA, hV, hP, hO, hU, hT, hM⟩

/-- C6: a configuration body containing the literal unavailability marker
makes getYamlFrom stop the process through log.Fatal before any prompt is
shown, and a YAML decoding failure of the body is likewise fatal with no
prompt shown. -/
theorem c6_unavailable_or_parse_fatal (env : YamlFetchEnv Config) (p0 : Project)
    (a : Answers) (hreq : env.newReqErr = none) (hdo : env.doErr = none) :
    (strContains env.body unavailableMarker = true →
      getYamlFrom env = FetchOutcome.fatalStop env.readErr.toList
          "Generator service is not available" ∧
      runETrace (getYamlFrom env) p0 a = [Event.configFetch, Event.fatalStop] ∧
      ∀ m, Event.promptShown m ∉ runETrace (getYamlFrom env) p0 a) ∧
    (∀ pe, strContains env.body unavailableMarker = false →
      env.parse env.body = Except.error pe →
      getYamlFrom env = FetchOutcome.fatalStop env.readErr.toList pe ∧
      runETrace (getYamlFrom env) p0 a = [Event.configFetch, Event.fatalStop] ∧
      ∀ m, Event.promptShown m ∉ runETrace (getYamlFrom env) p0 a) := by
  constructor
  · intro hmark
    have hout : getYamlFrom env = FetchOutcome.fatalStop env.readErr.toList
        "Generator service is not available" := by
      simp [getYamlFrom, hreq, hdo, hmark]
    refine ⟨hout, ?_, ?_⟩
    · rw [hout]
      rfl
    · intro m hmem
      rw [hout] at hmem
      simp [runETrace] at hmem
  · intro pe hmark hparse
    have hout : getYamlFrom env = FetchOutcome.fatalStop env.readErr.toList pe := by
      simp [getYamlFrom, hreq, hdo, hmark, hparse]
    refine ⟨hout, ?_, ?_⟩
    · rw [hout]
      rfl
    · intro m hmem
      rw [hout] at hmem
      simp [runETrace] at hmem

/-- The fetch environment of the C6 witness: a request that succeeds with
a body carrying the unavailability marker. -/
def envUnavailable : YamlFetchEnv Config :=
  { newReqErr := none, doErr := none,
    body := "oops Application is not available right now",
    readErr := none, parse := fun _ => Except.ok cfgDemo }

/-- C6 witness: the theorem applied at a concrete environment. -/
theorem c6_unavailable_or_parse_fatal_witness :
    getYamlFrom envUnavailable = FetchOutcome.fatalStop []
        "Generator service is not available" ∧
    runETrace (getYamlFrom envUnavailable) flagDefaults answersDemo
        = [Event.configFetch, Event.fatalStop] ∧
    ∀ m, Event.promptShown m ∉
        runETrace (getYamlFrom envUnavailable) flagDefaults answersDemo :=
  (c6_unavailable_or_parse_fatal envUnavailable flagDefaults answersDemo rfl rfl).1
    (by decide)

theorem fsLookup_fsSet (fs : FS) (p : String) (n : FsNode) :
    fsLookup (fsSet fs p n) p = some n := by
  induction fs with
  | nil => simp [fsSet, fsLookup]
  | cons kv rest ih =>
    obtain ⟨q, m⟩ := kv
    by_cases h : q = p
    · simp [fsSet, fsLookup, h]
    · simp [fsSet, fsLookup, h, ih]

/-- The archive of the round-trip instance: one directory entry and one
file entry with mode 0644. -/
def demoEntries : List ZipEntry :=
  [{ name := "d/", isDir := true, mode := 0o755, content := "" },
   { name := "d/a.txt", isDir := false, mode := 0o644, content := "hello" }]

/-- C8: Unzip processes the entries in archive order with none skipped; a
directory entry creates the directory and all parents with the permissive
default mode; a file entry creates parents as needed and writes its bytes
under the entry recorded mode; and the round trip of a one-directory,
one-file archive reproduces both with identical content and mode, with
the temporary zip file absent afterward. -/
theorem c8_unzip_roundtrip :
    (∀ (dest : String) (e : ZipEntry) (es : List ZipEntry) (fs : FS),
        Unzip dest (e :: es) fs = Unzip dest es (extractEntry dest fs e)) ∧
    (∀ (dest : String) (fs : FS) (n : String) (md : Nat) (c : String),
        extractEntry dest fs { name := n, isDir := true, mode := md, content := c }
          = mkdirAll fs (filepathJoin dest n) modePerm) ∧
    (∀ (dest : String) (fs : FS) (n : String) (md : Nat) (c : String),
        extractEntry dest fs { name := n, isDir := false, mode := md, content := c }
          = fsSet (mkdirAll fs (dirPart (filepathJoin dest n)) modePerm)
              (filepathJoin dest n) (FsNode.file c md)) ∧
    fsLookup (materialize "/home/user" "out" "zipbytes" demoEntries [])
        "/home/user/out/d" = some (FsNode.dir modePerm) ∧
    fsLookup (materialize "/home/user" "out" "zipbytes" demoEntries [])
        "/home/user/out/d/a.txt" = some (FsNode.file "hello" 0o644) ∧
    fsLookup (materialize "/home/user" "out" "zipbytes" demoEntries [])
        "/home/user/out.zip" = none :=
  ⟨fun _ _ _ _ => rfl, fun _ _ _ _ _ => rfl, fun _ _ _ _ _ => rfl,
    by decide, by decide, by decide⟩

/-- C9: the extraction target of every file entry is the plain join of
the destination with the recorded entry name, with no sanitization, and
an archive entry whose name carries parent-directory components lands
outside the destination: with destination /home/user/out the entry named
../../evil.txt is written at /home/evil.txt. -/
theorem c9_zip_slip :
    (∀ (dest : String) (fs : FS) (n : String) (md : Nat) (c : String),
        fsLookup
            (extractEntry dest fs { name := n, isDir := false, mode := md, content := c })
            (filepathJoin dest n)
          = some (FsNode.file c md)) ∧
    filepathJoin "/home/user/out" "../../evil.txt" = "/home/evil.txt" ∧
    hasPrefixL "/home/evil.txt".data "/home/user/out/".data = false ∧
    fsLookup (Unzip "/home/user/out"
        [{ name := "../../evil.txt", isDir := false, mode := 0o644, content := "x" }] [])
      "/home/evil.txt" = some (FsNode.file "x" 0o644) := by
  refine ⟨?_, by decide, by decide, by decide⟩
  intro dest fs n md c
  simpa [extractEntry] using
    fsLookup_fsSet (mkdirAll fs (dirPart (filepathJoin dest n)) modePerm)
      (filepathJoin dest n) (FsNode.file c md)

/-- C10: when request construction, sending, or body reading fails inside
getYamlFrom, the error is only logged and execution continues instead of
returning: a construction failure runs into the nil request dereference, a
send failure into the nil response dereference, and a read failure
continues into the marker check and the decode with the partially read
body. -/
theorem c10_errors_logged_not_returned (env : YamlFetchEnv Config) (e : String) :
    (env.newReqErr = some e → getYamlFrom env = FetchOutcome.nilDeref [e]) ∧
    (env.newReqErr = none → env.doErr = some e →
      getYamlFrom env = FetchOutcome.nilDeref [e]) ∧
    (∀ cfg, env.newReqErr = none → env.doErr = none → env.readErr = some e →
      strContains env.body unavailableMarker = false →
      env.parse env.body = Except.ok cfg →
      getYamlFrom env = FetchOutcome.ok [e] cfg) := by
  refine ⟨?_, ?_, ?_⟩
  · intro h1
    simp [getYamlFrom, h1]
  · intro h1 h2
    simp [getYamlFrom, h1, h2]
  · intro cfg h1 h2 h3 hmark hparse
    simp [getYamlFrom, h1, h2, h3, hmark, hparse]

/-- The fetch environment of the C10 witness: the send of the request
fails. -/
def envDoFail : YamlFetchEnv Config :=
  { newReqErr := none, doErr := some "connection refused",
    body := "", readErr := none, parse := fun _ => Except.ok cfgDemo }

/-- C10 witness: the theorem applied at a concrete environment whose send
fails. -/
theorem c10_errors_logged_not_returned_witness :
    getYamlFrom envDoFail = FetchOutcome.nilDeref ["connection refused"] :=
  (c10_errors_logged_not_returned envDoFail "connection refused").2.1 rfl rfl

/-! Helper lemmas for the query-encoding claim. -/

/-- The form state after the eight unconditional adds of RunE, before the
module loop. -/
def baseForm (p : Project) : Values :=
  [("template", [p.template]), ("groupid", [p.groupId]),
   ("artifactid", [p.artifactId]), ("version", [p.version]),
   ("packagename", [p.packageName]), ("snowdropbom", [p.snowdropBomVersion]),
   ("springbootversion", [p.springBootVersion]), ("outdir", [p.outDir])]

theorem buildForm_eq (p : Project) :
    buildForm p = p.modules.foldl
      (fun f v => if v ≠ "" then addValue f "module" v else f) (baseForm p) := rfl

theorem getValues_addValue (vs : Values) (k v k' : String) :
    getValues (addValue vs k v) k' =
      if k' = k then getValues vs k' ++ [v] else getValues vs k' := by
  induction vs with
  | nil =>
    by_cases h : k' = k
    · subst h
      simp [addValue, getValues]
    · simp [addValue, getValues, h, Ne.symm h]
  | cons kv rest ih =>
    obtain ⟨q, ws⟩ := kv
    by_cases hq : q = k
    · subst hq
      by_cases h : k' = q
      · subst h
        simp [addValue, getValues]
      · simp [addValue, getValues, h, Ne.symm h]
    · by_cases h2 : q = k'
      · subst h2
        have hne : ¬ q = k := hq
        simp [addValue, getValues, hq, hne]
      · simp [addValue, getValues, hq, h2, ih]

theorem keys_addValue (vs : Values) (k v : String) :
    (addValue vs k v).map Prod.fst =
      if k ∈ vs.map Prod.fst then vs.map Prod.fst else vs.map Prod.fst ++ [k] := by
  induction vs with
  | nil => simp [addValue]
  | cons kv rest ih =>
    obtain ⟨q, ws⟩ := kv
    by_cases hq : q = k
    · subst hq
      simp [addValue]
    · by_cases hmem : k ∈ rest.map Prod.fst <;>
        simp [addValue, hq, Ne.symm hq, ih, hmem]

theorem getValues_modulesFold (ms : List String) (f : Values) (k' : String) :
    getValues (ms.foldl (fun f v => if v ≠ "" then addValue f "module" v else f) f) k' =
      if k' = "module" then getValues f k' ++ ms.filter (fun v => v != "")
      else getValues f k' := by
  induction ms generalizing f with
  | nil => by_cases h : k' = "module" <;> simp [h]
  | cons v rest ih =>
    by_cases hv : v = ""
    · have hstep : (if v ≠ "" then addValue f "module" v else f) = f := by
        simp [hv]
      rw [List.foldl_cons, hstep, ih f]
      subst hv
      by_cases h : k' = "module" <;> simp [h, List.filter_cons]
    · have hstep : (if v ≠ "" then addValue f "module" v else f)
          = addValue f "module" v := by simp [hv]
      rw [List.foldl_cons, hstep, ih (addValue f "module" v)]
      by_cases h : k' = "module" <;>
        simp [h, getValues_addValue, List.filter_cons, hv, List.append_assoc]

theorem keys_modulesFold_mem (ms : List String) (f : Values)
    (hmem : "module" ∈ f.map Prod.fst) :
    (ms.foldl (fun f v => if v ≠ "" then addValue f "module" v else f) f).map Prod.fst
      = f.map Prod.fst := by
  induction ms generalizing f with
  | nil => rfl
  | cons v rest ih =>
    by_cases hv : v = ""
    · subst hv
      simpa using ih f hmem
    · have hstep : (if v ≠ "" then addValue f "module" v else f)
          = addValue f "module" v := by simp [hv]
      have hkeys : (addValue f "module" v).map Prod.fst = f.map Prod.fst := by
        rw [keys_addValue, if_pos hmem]
      have hmem2 : "module" ∈ (addValue f "module" v).map Prod.fst := by
        rw [hkeys]; exact hmem
      simp only [List.foldl_cons, hstep]
      rw [ih (addValue f "module" v) hmem2, hkeys]

theorem keys_modulesFold (ms : List String) (f : Values)
    (hnot : "module" ∉ f.map Prod.fst) :
    (ms.foldl (fun f v => if v ≠ "" then addValue f "module" v else f) f).map Prod.fst
      = (if ms.filter (fun v => v != "") = [] then f.map Prod.fst
         else f.map Prod.fst ++ ["module"]) := by
  induction ms generalizing f with
  | nil => simp
  | cons v rest ih =>
    by_cases hv : v = ""
    · subst hv
      simpa [List.filter_cons] using ih f hnot
    · have hstep : (if v ≠ "" then addValue f "module" v else f)
          = addValue f "module" v := by simp [hv]
      have hkeys : (addValue f "module" v).map Prod.fst
          = f.map Prod.fst ++ ["module"] := by
        rw [keys_addValue, if_neg hnot]
      have hmem2 : "module" ∈ (addValue f "module" v).map Prod.fst := by
        rw [hkeys]; simp
      have hfilter : (v :: rest).filter (fun v => v != "") ≠ [] := by
        simp [List.filter_cons, hv]
      simp only [List.foldl_cons, hstep]
      rw [keys_modulesFold_mem rest _ hmem2, hkeys, if_neg hfilter]

theorem filter_map_pair (l : List String) (k : String) :
    ((l.map (fun v => (k, v))).filter (fun kv => kv.1 == "module")).map Prod.snd
      = if (k == "module") = true then l else [] := by
  induction l with
  | nil => cases hk : (k == "module") <;> simp [hk]
  | cons v rest ih =>
    cases hk : (k == "module") <;> simp_all [List.filter_cons, hk]

theorem moduleParams_flattenForm (ks : List String) (vs : Values) :
    moduleParams ((ks.map (fun k => (getValues vs k).map (fun v => (k, v)))).flatten)
      = ((ks.filter (fun k => k == "module")).map (fun k => getValues vs k)).flatten := by
  induction ks with
  | nil => rfl
  | cons k ks ih =>
    unfold moduleParams at ih ⊢
    cases hk : (k == "module") <;>
      simp_all [List.filter_cons, List.filter_append, filter_map_pair, hk]

theorem filter_module_sortStrings (ks : List String) :
    (sortStrings ks).filter (fun k => k == "module")
      = ks.filter (fun k => k == "module") := by
  have hperm : ((sortStrings ks).filter (fun k => k == "module")).Perm
      (ks.filter (fun k => k == "module")) :=
    (List.perm_insertionSort strLeRel ks).filter (fun k => k == "module")
  have h1 : ∀ x ∈ (sortStrings ks).filter (fun k => k == "module"), x = "module" := by
    intro x hx
    simpa using List.of_mem_filter hx
  have h2 : ∀ x ∈ ks.filter (fun k => k == "module"), x = "module" := by
    intro x hx
    simpa using List.of_mem_filter hx
  rw [List.eq_replicate_of_mem h1, List.eq_replicate_of_mem h2]
  rw [hperm.length_eq]

theorem moduleParams_encodePairs (vs : Values) :
    moduleParams (encodePairs vs)
      = (((vs.map Prod.fst).filter (fun k => k == "module")).map
          (fun k => getValues vs k)).flatten := by
  unfold encodePairs
  rw [moduleParams_flattenForm, filter_module_sortStrings]

theorem getValues_buildForm_module (p : Project) :
    getValues (buildForm p) "module" = p.modules.filter (fun v => v != "") := by
  rw [buildForm_eq, getValues_modulesFold, if_pos rfl]
  rfl

theorem getValues_buildForm_other (p : Project) (k' : String)
    (h : k' ≠ "module") :
    getValues (buildForm p) k' = getValues (baseForm p) k' := by
  rw [buildForm_eq, getValues_modulesFold, if_neg h]

theorem keys_buildForm (p : Project) :
    (buildForm p).map Prod.fst =
      (if p.modules.filter (fun v => v != "") = [] then
        (baseForm p).map Prod.fst
      else (baseForm p).map Prod.fst ++ ["module"]) := by
  have hb : (baseForm p).map Prod.fst
      = ["template", "groupid", "artifactid", "version", "packagename",
         "snowdropbom", "springbootversion", "outdir"] := rfl
  rw [buildForm_eq]
  refine keys_modulesFold p.modules (baseForm p) ?_
  rw [hb]
  decide

theorem moduleParams_buildForm (p : Project) :
    moduleParams (encodePairs (buildForm p))
      = p.modules.filter (fun v => v != "") := by
  have hb : (baseForm p).map Prod.fst
      = ["template", "groupid", "artifactid", "version", "packagename",
         "snowdropbom", "springbootversion", "outdir"] := rfl
  rw [moduleParams_encodePairs, keys_buildForm]
  by_cases hempty : p.modules.filter (fun v => v != "") = []
  · have hfe : (["template", "groupid", "artifactid", "version", "packagename",
        "snowdropbom", "springbootversion", "outdir"].filter
          (fun k => k == "module")) = ([] : List String) := by decide
    rw [if_pos hempty, hb, hfe, hempty]
    rfl
  · have hfe2 : ((["template", "groupid", "artifactid", "version",
        "packagename", "snowdropbom", "springbootversion", "outdir"]
          ++ ["module"]).filter (fun k => k == "module")) = ["module"] := by
      decide
    rw [if_neg hempty, hb, hfe2]
    simp [getValues_buildForm_module]

theorem template_mem_encodePairs (p : Project) :
    ("template", p.template) ∈ encodePairs (buildForm p) := by
  have hgv : getValues (buildForm p) "template" = [p.template] := by
    rw [getValues_buildForm_other p "template" (by decide)]
    rfl
  have hkey : "template" ∈ sortStrings ((buildForm p).map Prod.fst) := by
    have hb : (baseForm p).map Prod.fst
        = ["template", "groupid", "artifactid", "version", "packagename",
           "snowdropbom", "springbootversion", "outdir"] := rfl
    unfold sortStrings
    rw [List.mem_insertionSort, keys_buildForm, hb]
    by_cases hempty : p.modules.filter (fun v => v != "") = [] <;>
      simp [hempty]
  unfold encodePairs
  rw [List.mem_flatten]
  refine ⟨(getValues (buildForm p) "template").map (fun v => ("template", v)),
    ?_, ?_⟩
  · exact List.mem_map_of_mem _ hkey
  · rw [hgv]
    simp

/-! The query-encoding claim. -/

/-- C3 amended: the emitted parameter list carries one module parameter
per non-empty module entry, in selection order, and it also always
carries a template parameter, even when the template is empty, because
every descriptor field is encoded unconditionally; the instance with
template empty and modules web and data-jpa yields exactly those two
module parameters in that order plus an empty-valued template
parameter. -/
theorem c3_module_and_template_params (p : Project) :
    moduleParams (encodePairs (buildForm p))
        = p.modules.filter (fun v => v != "") ∧
    ("template", p.template) ∈ encodePairs (buildForm p) ∧
    (p.template = "" → p.modules = ["web", "data-jpa"] →
      moduleParams (encodePairs (buildForm p)) = ["web", "data-jpa"] ∧
      ("template", "") ∈ encodePairs (buildForm p)) := by
  refine ⟨moduleParams_buildForm p, template_mem_encodePairs p, ?_⟩
  intro ht hm
  constructor
  · rw [moduleParams_buildForm p, hm]
    decide
  · have hmem := template_mem_encodePairs p
    rwa [ht] at hmem

/-- The descriptor of the C3 instance: flag defaults with the two modules
of the spec example, so the template is the empty string. -/
def p3demo : Project := { flagDefaults with modules := ["web", "data-jpa"] }

/-- C3 counterexample: at the instance of the claim the encoded request
does contain a template parameter: the pair with the empty template value
is emitted, and the text template= occurs in the encoded query string. -/
theorem c3_counterexample :
    ("template", "") ∈ encodePairs (buildForm p3demo) ∧
    strContains (encodeValues (buildForm p3demo)) "template=" = true := by
  decide

/-- C3 witness: the amended claim at a concrete descriptor with template
empty and modules web and data-jpa. -/
theorem c3_module_and_template_params_witness :
    moduleParams (encodePairs (buildForm p3demo)) = ["web", "data-jpa"] ∧
    ("template", "") ∈ encodePairs (buildForm p3demo) :=
  (c3_module_and_template_params p3demo).2.2 rfl rfl

end ScaffoldSpec
